import Mathlib

/-!
Verification of the core business rules of the fast-food loyalty system:
point accrual per purchase, role promotion on visits, coupon issuance and
redemption, and the access-control and validation guards around them.

The definitions below are a shallow embedding of the TypeScript source:
pure helpers from `utils/points.ts`, the controller bodies from
`purchaseController`, `couponController` and `customerController`, and the
zod validation schemas. The relational store is modelled as an explicit
`State` value; each controller is a function from inputs and state to an
`Except` of error or result-plus-new-state, and every error path returns
before the transactional write, so the pre-state is unchanged there exactly
as in the source. JavaScript semantics that matter are carried over
explicitly: `Math.floor` of an exact quotient by 100 is integer division
(Lean's `Int` division floors for positive divisors), string comparison and
splitting are done on character lists, and the binary64 multiplication of
the points formula is modelled bit-exactly - the multiplier literals as
their 53-bit significands and the product rounding as round to nearest,
ties to even - because the rounding is observable: Math.floor(45 * 1.4) is
62, not 63.
-/

namespace Loyalty

/-- Lexicographic strict comparison of character lists, mirroring the order
JavaScript string comparison induces on the code strings of this system
(all of them ASCII, where code-unit order and codepoint order agree). -/
def strLtb : List Char → List Char → Bool
  | [], [] => false
  | [], _ :: _ => true
  | _ :: _, [] => false
  | a :: as, b :: bs => if a < b then true else if b < a then false else strLtb as bs

/-- Splitting a character list at every dash, as code.split('-') does:
the separator is consumed and empty segments are kept. -/
def splitDash : List Char → List (List Char)
  | [] => [[]]
  | c :: rest =>
    let r := splitDash rest
    if c = '-' then [] :: r
    else
      match r with
      | [] => [[c]]
      | h :: t => (c :: h) :: t

/-- Leading-digit-run parse as parseInt performs it on the strings this
system feeds it: none when there is no leading decimal digit (where parseInt
would produce NaN). -/
def jsParseInt (cs : List Char) : Option Nat :=
  let ds := cs.takeWhile Char.isDigit
  if ds.isEmpty then none
  else some (ds.foldl (fun n c => n * 10 + (c.toNat - 48)) 0)

/-- Zero padding as String(n).padStart(w, '0') produces it. -/
def zeroPad (w : Nat) (n : Nat) : String :=
  let s := toString n
  if s.length < w then ⟨List.replicate (w - s.length) '0'⟩ ++ s else s

/-- Fuel-driven binary length of a natural number: bitLenFuel fuel n is the
number of binary digits of n whenever n < 2 to the fuel. The fuel form
keeps the recursion structural so that concrete inputs evaluate inside the
kernel. -/
def bitLenFuel : Nat → Nat → Nat
  | 0, _ => 0
  | fuel + 1, n => if n = 0 then 0 else bitLenFuel fuel (n / 2) + 1

/-- Binary length with fuel 128, enough for every value this system
computes: the products rounded below are of a base under 2 to the 53 and a
53-bit significand, so they stay far under 2 to the 128. -/
def bitLength (n : Nat) : Nat := bitLenFuel 128 n

/-- The 53-bit binary64 significand of each multiplier literal of
calculatePoints (src/unnamed/part_004). The literals 1.1, 1.4, 1.7 and 1.0
all lie in the binade [1, 2), where a double is significand over 2 to the
52; JavaScript stores the literal nearest double, whose significand is the
decimal value times 2 to the 52 rounded to nearest (ties to even) - the
amended C1 theorem proves these constants are exactly that rounding. An
unrecognized role falls back to 1.0 through multipliers[role] || 1.0. -/
def mantissaOf (role : String) : Int :=
  if role = "NORMAL" then 4953959590107546
  else if role = "LOYAL" then 6305039478318694
  else if role = "OWNER" then 7656119366529843
  else if role = "ADMIN" then 4503599627370496
  else 4503599627370496

/-- Round a natural number to at most 53 significant binary digits, nearest
value with ties to even: the significand update binary64 multiplication
performs on the exact product. A number of at most 53 bits is returned
unchanged (such values are exactly representable). -/
def roundedNat (n : Nat) : Nat :=
  let L := bitLength n
  if L ≤ 53 then n
  else
    let s := L - 53
    let q := n / 2 ^ s
    let r := n % 2 ^ s
    let half := 2 ^ (s - 1)
    let m :=
      if half < r then q + 1
      else if r < half then q
      else if q % 2 = 0 then q else q + 1
    m * 2 ^ s

/-- Math.floor of the binary64 rounding of p over 2 to the 52: round the
magnitude of p to 53 significant bits (binary64 round to nearest, ties to
even; the values here are all normal and far from overflow), reattach the
sign, and floor the result - Lean's Int division by the positive 2 to the
52 floors toward negative infinity exactly as Math.floor does. -/
def floorAfterRound (p : Int) : Int :=
  p.sign * (roundedNat p.natAbs : Int) / 2 ^ 52

/-- calculatePoints (src/unnamed/part_004): basePoints = Math.floor(amount /
100), result = Math.floor(basePoints * multiplier), both computed on IEEE
binary64 doubles. For integer amounts of magnitude at most 2 to the 53 (the
doubles that hold integers exactly; beyond them the request JSON could not
carry the integer anyway) Math.floor(amount / 100) equals floor integer
division, since amount / 100 is at least 1/100 away from the next integer
while its rounding error stays below 2 to the minus 7. The multiplication
basePoints * multiplier is where double rounding shows: its exact value is
basePoints times the literal's significand over 2 to the 52, and the
product double is that value rounded to 53 significant bits, then floored. -/
def calculatePoints (amount : Int) (role : String) : Int :=
  floorAfterRound (amount / 100 * mantissaOf role)

/-- generateCouponCode (src/unnamed/part_004): "COUP-" + year + "-" +
String(lastId + 1).padStart(3, '0'). The source reads the year from the
clock; here it arrives as an argument. -/
def generateCouponCode (lastId : Nat) (year : Nat) : String :=
  "COUP-" ++ toString year ++ "-" ++ zeroPad 3 (lastId + 1)

/-- Numeric suffix a stored coupon code contributes to code generation
(couponController.ts lines 34-37): parseInt(code.split('-')[2]). Every code
the system generates has a numeric third segment, for which this embedding
is exact; a malformed code would make the source produce NaN and later the
string "COUP-year-NaN", a path collapsed to 0 here and exercised by no
claim. -/
def couponSuffix (code : String) : Nat :=
  (jsParseInt ((splitDash code.data).getD 2 [])).getD 0

/-- Customer row of the store. The PIN hash is omitted (an opaque credential
handled by the external hashing collaborator); row creation timestamps are
likewise outside the claims. Points are integers rather than naturals so
that non-negativity is a provable invariant of the operations, not a typing
artifact. -/
structure Customer where
  id : String
  loyaltyId : String
  name : String
  email : String
  phone : String
  points : Int
  totalSpent : Int
  visitCount : Nat
  role : String
deriving DecidableEq

/-- Purchase row: the fields the controller writes. Row id and timestamp are
assigned by the store and touched by no claim. -/
structure Purchase where
  customerId : String
  amount : Int
  pointsEarned : Int
  receiptNumber : String
deriving DecidableEq

/-- Coupon row: the fields the controllers read and write. The redeemedAt
timestamp is modelled as an abstract clock value. -/
structure Coupon where
  code : String
  customerId : String
  value : Int
  redeemed : Bool
  redeemedAt : Option Nat
deriving DecidableEq

/-- The verified identity attached to a request by the credential service:
req.user with its id and role. -/
structure Actor where
  id : String
  role : String
deriving DecidableEq

/-- Error responses of the controllers, one constructor per distinct
user-visible failure: 404 customer/coupon not found, 403 access denied or
role-change refusal, 400 insufficient points, 400 already redeemed, 400
duplicate email, 400 schema validation failure, and the generic 500. -/
inductive ApiError where
  | notFound
  | forbidden
  | insufficientPoints
  | alreadyRedeemed
  | conflict
  | validationFailed
  | internal
deriving DecidableEq

/-- The relational store: the three tables the core logic touches. -/
structure State where
  customers : List Customer
  purchases : List Purchase
  coupons : List Coupon
deriving DecidableEq

/-- A store write with a unique-key where clause: the store updates exactly
one row, and since every key this system updates by (customer id, coupon
code) is a unique column, that row is the first - and only - match. -/
def updateFirst {α : Type} (p : α → Bool) (f : α → α) : List α → List α
  | [] => []
  | a :: as => if p a then f a :: as else a :: updateFirst p f as

/-- The role-promotion expression of createPurchase (src/unnamed/part_005
lines 40-42): customer.visitCount + 1 >= 50 ? 'OWNER' :
customer.visitCount + 1 >= 20 ? 'LOYAL' : customer.role, abstracted over the
post-increment visit count. The source carries no special case for ADMIN and
falls back to the current role only below 20 visits. -/
def roleAfterVisit (currentRole : String) (newVisitCount : Nat) : String :=
  if 50 ≤ newVisitCount then "OWNER"
  else if 20 ≤ newVisitCount then "LOYAL"
  else currentRole

/-- createPurchase (src/unnamed/part_005): look up the customer, compute
pointsEarned from the pre-purchase role, then in one transaction insert the
purchase row and apply the three increments and the role promotion. The
receipt fallback generateReceiptNumber() draws on the clock and randomness
and is resolved by the caller here, arriving as the receipt argument. -/
def createPurchase (customerId : String) (amount : Int) (receipt : String)
    (st : State) : Except ApiError (Purchase × Customer × State) :=
  match st.customers.find? (fun c => c.id == customerId) with
  | none => .error .notFound
  | some customer =>
    let pointsEarned := calculatePoints amount customer.role
    let purchase : Purchase :=
      { customerId := customerId, amount := amount,
        pointsEarned := pointsEarned, receiptNumber := receipt }
    let updated : Customer :=
      { customer with
        points := customer.points + pointsEarned
        totalSpent := customer.totalSpent + amount
        visitCount := customer.visitCount + 1
        role := roleAfterVisit customer.role (customer.visitCount + 1) }
    .ok (purchase, updated,
      { st with
        purchases := st.purchases ++ [purchase]
        customers := updateFirst (fun c => c.id == customerId)
          (fun _ => updated) st.customers })

/-- One comparison step of the descending-order scan: keep whichever coupon
has the larger code string. -/
def maxStep (acc : Option Coupon) (c : Coupon) : Option Coupon :=
  match acc with
  | none => some c
  | some b => if strLtb b.code.data c.code.data then some c else some b

/-- prisma.coupon.findFirst with orderBy code descending: the stored coupon
whose code string is largest, none when the table is empty. -/
def maxByCode (coupons : List Coupon) : Option Coupon :=
  coupons.foldl maxStep none

/-- createCoupon (couponController.ts lines 6-66): the self-or-admin guard,
the customer lookup, the 100-point precondition, then code generation from
the lexicographically last stored code and, in one transaction, the coupon
insert and the 100-point decrement. The row's redeemed = false and unset
redeemedAt come from the store's column defaults. Modelled from the spec:
the Prisma schema carrying those defaults is not under src/, and the spec
fixes a fresh coupon as redeemed = false with redeemedAt set only on
redemption. -/
def createCoupon (actor : Actor) (customerId : String) (year : Nat)
    (st : State) : Except ApiError (Coupon × State) :=
  if actor.role ≠ "ADMIN" ∧ actor.id ≠ customerId then .error .forbidden
  else
    match st.customers.find? (fun c => c.id == customerId) with
    | none => .error .notFound
    | some customer =>
      if customer.points < 100 then .error .insufficientPoints
      else
        let lastIdNumber :=
          match maxByCode st.coupons with
          | none => 0
          | some lc => couponSuffix lc.code
        let coupon : Coupon :=
          { code := generateCouponCode lastIdNumber year,
            customerId := customerId, value := 1000,
            redeemed := false, redeemedAt := none }
        .ok (coupon,
          { st with
            coupons := st.coupons ++ [coupon]
            customers := updateFirst (fun c => c.id == customerId)
              (fun c => { c with points := c.points - 100 }) st.customers })

/-- redeemCoupon (couponController.ts lines 119-151): look up by code,
reject a second redemption, otherwise set redeemed and redeemedAt on the
row. The route guards this with requireAdmin; no customer field is
referenced by the handler. -/
def redeemCoupon (code : String) (now : Nat) (st : State) :
    Except ApiError (Coupon × State) :=
  match st.coupons.find? (fun c => c.code == code) with
  | none => .error .notFound
  | some coupon =>
    if coupon.redeemed then .error .alreadyRedeemed
    else
      let updated : Coupon := { coupon with redeemed := true, redeemedAt := some now }
      .ok (updated,
        { st with
          coupons := updateFirst (fun c => c.code == code)
            (fun _ => updated) st.coupons })

/-- Body of a customer update request: the five fields updateCustomerSchema
admits, each optional. -/
structure UpdatePayload where
  name : Option String
  email : Option String
  phone : Option String
  points : Option Int
  role : Option String
deriving DecidableEq

/-- Phone shape of updateCustomerSchema: an optional leading plus followed by
ten to fifteen decimal digits, anchored at both ends. -/
def phoneOk (s : String) : Bool :=
  let t :=
    match s.data with
    | '+' :: rest => rest
    | l => l
  decide (10 ≤ t.length) && decide (t.length ≤ 15) && t.all Char.isDigit

/-- updateCustomerSchema (src/unnamed/part_006 lines 38-44): every present
field must pass its check - name at least two characters, phone the regex
above, points an integer of at least zero, role one of the four enum
values. The email format test lives inside the validation library (request
validation middleware is scoped out by the spec as an external
collaborator), so a present email of any shape is admitted here; no claim
turns on the email string. Points arrive as an Int because the schema's
.int() restricts the JS number to integers. -/
def updatePayloadValid (u : UpdatePayload) : Bool :=
  (match u.name with | none => true | some n => decide (2 ≤ n.length)) &&
  (match u.phone with | none => true | some p => phoneOk p) &&
  (match u.points with | none => true | some p => decide (0 ≤ p)) &&
  (match u.role with
   | none => true
   | some r => ["NORMAL", "LOYAL", "OWNER", "ADMIN"].contains r)

/-- prisma.customer.update data payload: each present field overwrites the
stored one, the rest are untouched. -/
def applyUpdate (u : UpdatePayload) (c : Customer) : Customer :=
  { c with
    name := u.name.getD c.name
    email := u.email.getD c.email
    phone := u.phone.getD c.phone
    points := u.points.getD c.points
    role := u.role.getD c.role }

/-- updateCustomer (customerController.ts lines 133-173): the ownership
check, then the role-change guard (updates.role is truthy exactly when a
role field is present, a validated role being a nonempty enum string), then
the store update. A missing row makes prisma throw, answered by the generic
500 handler with no state change, modelled as ApiError.internal. -/
def updateCustomer (actor : Actor) (id : String) (u : UpdatePayload)
    (st : State) : Except ApiError (Customer × State) :=
  if actor.role ≠ "ADMIN" ∧ actor.id ≠ id then .error .forbidden
  else if u.role ≠ none ∧ actor.role ≠ "ADMIN" then .error .forbidden
  else
    match st.customers.find? (fun c => c.id == id) with
    | none => .error .internal
    | some c =>
      let c' := applyUpdate u c
      .ok (c',
        { st with
          customers := updateFirst (fun x => x.id == id)
            (fun _ => c') st.customers })

/-- createCustomer (customerController.ts lines 72-131): reject a duplicate
email, otherwise insert a row whose role the controller sets to 'NORMAL'
explicitly. Loyalty-id generation and PIN hashing are resolved upstream of
the insert and arrive as arguments. Modelled from the spec: the Prisma
schema carrying the column defaults is not under src/, and the spec fixes a
fresh customer's points at zero, with totalSpent and visitCount likewise
starting at zero. -/
def createCustomer (id loyaltyId name email phone : String) (st : State) :
    Except ApiError (Customer × State) :=
  if st.customers.any (fun c => c.email == email) then .error .conflict
  else
    let c : Customer :=
      { id := id, loyaltyId := loyaltyId, name := name, email := email,
        phone := phone, points := 0, totalSpent := 0, visitCount := 0,
        role := "NORMAL" }
    .ok (c, { st with customers := st.customers ++ [c] })

/-- One request kind per operation the claims' sequences range over:
customer creation, purchase recording, coupon creation, coupon redemption
and customer update (customer deletion is outside the claimed sequences).
The middleware gates travel with the operation: recordPurchase carries
createPurchaseSchema's positive-amount check and updateCustomer carries
updateCustomerSchema; a failing validation answers 400 before the controller
runs. -/
inductive Op where
  | opCreateCustomer (id loyaltyId name email phone : String)
  | opRecordPurchase (customerId : String) (amount : Int) (receipt : String)
  | opCreateCoupon (actor : Actor) (customerId : String) (year : Nat)
  | opRedeemCoupon (code : String) (now : Nat)
  | opUpdateCustomer (actor : Actor) (id : String) (u : UpdatePayload)

/-- Post-state of one request: on any error path the state is the pre-state,
since every controller validates before its transactional write and the
write is atomic. -/
def step (op : Op) (st : State) : State :=
  match op with
  | .opCreateCustomer id lid name email phone =>
    match createCustomer id lid name email phone st with
    | .ok (_, st') => st'
    | .error _ => st
  | .opRecordPurchase cid amount receipt =>
    if 0 < amount then
      match createPurchase cid amount receipt st with
      | .ok (_, _, st') => st'
      | .error _ => st
    else st
  | .opCreateCoupon actor cid year =>
    match createCoupon actor cid year st with
    | .ok (_, st') => st'
    | .error _ => st
  | .opRedeemCoupon code now =>
    match redeemCoupon code now st with
    | .ok (_, st') => st'
    | .error _ => st
  | .opUpdateCustomer actor id u =>
    if updatePayloadValid u then
      match updateCustomer actor id u st with
      | .ok (_, st') => st'
      | .error _ => st
    else st

/-- Folding a whole request sequence over the store. -/
def runOps (ops : List Op) (st : State) : State :=
  ops.foldl (fun s o => step o s) st

/-- The balance invariant of the spec: every stored customer's points are at
least zero. -/
def PointsNonneg (st : State) : Prop := ∀ c ∈ st.customers, 0 ≤ c.points

/-- Multiplier table exactly as the spec words it, the decimal literals read
as exact rationals: NORMAL 1.1, LOYAL 1.4, OWNER 1.7, ADMIN 1.0, any
unrecognized role 1.0. -/
def specMultiplier (role : String) : ℚ :=
  if role = "NORMAL" then 11 / 10
  else if role = "LOYAL" then 14 / 10
  else if role = "OWNER" then 17 / 10
  else if role = "ADMIN" then 1
  else 1

/-- Nearest integer to a rational with ties to even, the rounding binary64
arithmetic applies to significands. -/
def rne (q : ℚ) : ℤ :=
  if q - ⌊q⌋ < 1 / 2 then ⌊q⌋
  else if (1 / 2 : ℚ) < q - ⌊q⌋ then ⌊q⌋ + 1
  else if ⌊q⌋ % 2 = 0 then ⌊q⌋ else ⌊q⌋ + 1

/-- Binary64 rounding of a positive rational, stated over the reals of the
IEEE description: scale by two to the 52 minus the exponent so the
significand lands in [2^52, 2^53), round it to the nearest integer with
ties to even, and scale back. -/
def flPos (q : ℚ) : ℚ :=
  (rne (q * (2 : ℚ) ^ (52 - Int.log 2 q)) : ℚ) * (2 : ℚ) ^ (Int.log 2 q - 52)

/-- Binary64 rounding of a rational (round to nearest, ties to even),
extended to zero and negatives by the symmetry of the IEEE rounding; the
values this system computes are all normal and far below overflow, so
neither subnormals nor infinities arise. -/
def fl (q : ℚ) : ℚ :=
  if q = 0 then 0
  else if 0 < q then flPos q
  else -flPos (-q)

/-- Rank of a role along the promotion order NORMAL < LOYAL < OWNER the spec
states, with ADMIN above every promotion tier. -/
def roleRank (role : String) : Nat :=
  if role = "NORMAL" then 0
  else if role = "LOYAL" then 1
  else if role = "OWNER" then 2
  else 3

/-- Sample stored customer used by the concrete-input witnesses, with the
loyalty fields under test left as parameters. -/
def sampleCustomer (pts : Int) (visits : Nat) (role : String) : Customer :=
  { id := "c1", loyaltyId := "CUST001", name := "Ann", email := "a@b.c",
    phone := "12345678901", points := pts, totalSpent := 40,
    visitCount := visits, role := role }

/-- Sample one-customer store used by the concrete-input witnesses. -/
def sampleState (pts : Int) (visits : Nat) (role : String) : State :=
  { customers := [sampleCustomer pts visits role], purchases := [],
    coupons := [] }

/-- Helper: a fuel argument of zero yields length zero. -/
theorem bitLenFuel_zero : ∀ fuel, bitLenFuel fuel 0 = 0
  | 0 => rfl
  | _ + 1 => rfl

/-- Helper: whenever the fuel bounds the input, bitLenFuel computes the
binary length: the number of digits of a positive n, squeezing n between
consecutive powers of two. -/
theorem bitLenFuel_spec : ∀ fuel n, n < 2 ^ fuel → 1 ≤ n →
    1 ≤ bitLenFuel fuel n
    ∧ 2 ^ (bitLenFuel fuel n - 1) ≤ n ∧ n < 2 ^ bitLenFuel fuel n := by
  intro fuel
  induction fuel with
  | zero =>
    intro n hlt h1
    simp at hlt
    omega
  | succ fuel ih =>
    intro n hlt h1
    show 1 ≤ (if n = 0 then 0 else bitLenFuel fuel (n / 2) + 1)
      ∧ 2 ^ ((if n = 0 then 0 else bitLenFuel fuel (n / 2) + 1) - 1)
          ≤ n
      ∧ n < 2 ^ (if n = 0 then 0 else bitLenFuel fuel (n / 2) + 1)
    rw [if_neg (by omega)]
    by_cases h2 : n = 1
    · subst h2
      rw [show (1 : ℕ) / 2 = 0 from rfl, bitLenFuel_zero]
      norm_num
    · have hn2 : 2 ≤ n := by omega
      have hpow : 2 ^ (fuel + 1) = 2 * 2 ^ fuel := by ring
      have hlt' : n / 2 < 2 ^ fuel := by omega
      have h1' : 1 ≤ n / 2 := by omega
      obtain ⟨hk1, hk2, hk3⟩ := ih (n / 2) hlt' h1'
      set k := bitLenFuel fuel (n / 2) with hk
      have hA : 2 ^ k = 2 * 2 ^ (k - 1) := by
        rw [← pow_succ']
        congr 1
        omega
      have hB : 2 ^ (k + 1) = 2 * 2 ^ k := by ring
      refine ⟨by omega, ?_, ?_⟩
      · have : (k + 1) - 1 = k := by omega
        rw [this]
        omega
      · omega

/-- Helper: the fixed fuel of 128 is enough for every value under 2 to the
128, far above anything the points pipeline produces. -/
theorem bitLength_spec (n : Nat) (hlt : n < 2 ^ 128) (h1 : 1 ≤ n) :
    1 ≤ bitLength n
    ∧ 2 ^ (bitLength n - 1) ≤ n ∧ n < 2 ^ bitLength n :=
  bitLenFuel_spec 128 n hlt h1

/-- Helper: the integer binary logarithm is pinned by any bracketing pair
of consecutive powers of two. -/
theorem log2_unique (q : ℚ) (e : ℤ) (h0 : 0 < q)
    (h1 : (2 : ℚ) ^ e ≤ q) (h2 : q < (2 : ℚ) ^ (e + 1)) :
    Int.log 2 q = e := by
  have ha : ((2 : ℕ) : ℚ) ^ Int.log 2 q ≤ q :=
    Int.zpow_log_le_self (by norm_num) h0
  have hb : q < ((2 : ℕ) : ℚ) ^ (Int.log 2 q + 1) :=
    Int.lt_zpow_succ_log_self (by norm_num) q
  norm_num at ha hb
  have hc : (2 : ℚ) ^ e < (2 : ℚ) ^ (Int.log 2 q + 1) := lt_of_le_of_lt h1 hb
  have hd : (2 : ℚ) ^ Int.log 2 q < (2 : ℚ) ^ (e + 1) := lt_of_le_of_lt ha h2
  have he : e < Int.log 2 q + 1 := by
    have := (zpow_lt_zpow_iff_right₀ (by norm_num : (1:ℚ) < 2)).mp hc
    exact this
  have hf : Int.log 2 q < e + 1 := by
    have := (zpow_lt_zpow_iff_right₀ (by norm_num : (1:ℚ) < 2)).mp hd
    exact this
  omega

/-- Helper: an integer rounds to itself. -/
theorem rne_intCast (k : ℤ) : rne (k : ℚ) = k := by
  unfold rne
  rw [Int.floor_intCast]
  rw [if_pos (by norm_num)]

/-- Helper: rounding n over 2 to the s to the nearest integer, ties to
even, is the quotient bumped by the carry that compares the remainder with
half the divisor - the integer formula the implementation uses. -/
theorem rne_natCast_div (n s : ℕ) (hs1 : 1 ≤ s) :
    rne ((n : ℚ) / 2 ^ s)
      = ((if 2 ^ (s - 1) < n % 2 ^ s then n / 2 ^ s + 1
          else if n % 2 ^ s < 2 ^ (s - 1) then n / 2 ^ s
          else if (n / 2 ^ s) % 2 = 0 then n / 2 ^ s
          else n / 2 ^ s + 1 : ℕ) : ℤ) := by
  have hfloor : ⌊(n : ℚ) / 2 ^ s⌋ = ((n / 2 ^ s : ℕ) : ℤ) := by
    have h := Rat.floor_natCast_div_natCast n (2 ^ s)
    exact_mod_cast h
  have hsub : (n : ℚ) / 2 ^ s - (((n / 2 ^ s : ℕ) : ℤ) : ℚ)
      = ((n % 2 ^ s : ℕ) : ℚ) / 2 ^ s := by
    have hd : (n : ℚ) = 2 ^ s * ((n / 2 ^ s : ℕ) : ℚ) + ((n % 2 ^ s : ℕ) : ℚ) := by
      exact_mod_cast congrArg (Nat.cast : ℕ → ℚ) (Nat.div_add_mod n (2 ^ s)).symm
    have hcc : (((n / 2 ^ s : ℕ) : ℤ) : ℚ) = ((n / 2 ^ s : ℕ) : ℚ) :=
      Int.cast_natCast _
    have hne : ((2 : ℚ) ^ s) ≠ 0 := by positivity
    rw [hcc, hd]
    field_simp
  have hposs : (0 : ℚ) < 2 ^ s := by positivity
  have hhalf : (2 : ℚ) ^ s = 2 * 2 ^ (s - 1) := by
    rw [← pow_succ']
    congr 1
    omega
  have hcastp : ((2 ^ (s - 1) : ℕ) : ℚ) = (2 : ℚ) ^ (s - 1) := by push_cast; rfl
  have hcmp_lt : ((n % 2 ^ s : ℕ) : ℚ) / 2 ^ s < 1 / 2 ↔ n % 2 ^ s < 2 ^ (s - 1) := by
    rw [div_lt_div_iff₀ hposs (by norm_num), one_mul, hhalf]
    constructor
    · intro h
      have h2 : ((n % 2 ^ s : ℕ) : ℚ) < 2 ^ (s - 1) := by linarith
      rw [← hcastp] at h2
      exact_mod_cast h2
    · intro h
      have h2 : ((n % 2 ^ s : ℕ) : ℚ) < ((2 ^ (s - 1) : ℕ) : ℚ) := by exact_mod_cast h
      rw [hcastp] at h2
      linarith
  have hcmp_gt : (1 / 2 : ℚ) < ((n % 2 ^ s : ℕ) : ℚ) / 2 ^ s ↔ 2 ^ (s - 1) < n % 2 ^ s := by
    rw [div_lt_div_iff₀ (by norm_num) hposs, one_mul, hhalf]
    constructor
    · intro h
      have h2 : ((2 ^ (s - 1) : ℕ) : ℚ) < ((n % 2 ^ s : ℕ) : ℚ) := by
        rw [hcastp]
        linarith
      exact_mod_cast h2
    · intro h
      have h2 : ((2 ^ (s - 1) : ℕ) : ℚ) < ((n % 2 ^ s : ℕ) : ℚ) := by exact_mod_cast h
      rw [hcastp] at h2
      linarith
  unfold rne
  rw [hfloor, hsub]
  by_cases hlt : n % 2 ^ s < 2 ^ (s - 1)
  · rw [if_pos (hcmp_lt.mpr hlt), if_neg (by omega), if_pos hlt]
  · by_cases hgt : 2 ^ (s - 1) < n % 2 ^ s
    · rw [if_neg (by rw [hcmp_lt]; omega), if_pos (hcmp_gt.mpr hgt), if_pos hgt]
      push_cast
      ring
    · rw [if_neg (by rw [hcmp_lt]; omega), if_neg (by rw [hcmp_gt]; omega)]
      have hpar : ((n / 2 ^ s : ℕ) : ℤ) % 2 = 0 ↔ (n / 2 ^ s) % 2 = 0 := by omega
      rw [if_neg (by omega : ¬ 2 ^ (s - 1) < n % 2 ^ s),
        if_neg (by omega : ¬ n % 2 ^ s < 2 ^ (s - 1))]
      by_cases hev : (n / 2 ^ s) % 2 = 0
      · rw [if_pos (hpar.mpr hev), if_pos hev]
      · rw [if_neg (by rw [hpar]; omega), if_neg hev]
        push_cast
        ring

/-- Helper: on a positive value n over 2 to the 52, the real-number binary64
rounding spec computes exactly the integer significand update of
roundedNat: the exponent is the binary length minus 53, values of at most
53 bits pass through unchanged, and longer ones round at the length-53
cutoff. -/
theorem flPos_natCast_div (n : ℕ) (h1 : 1 ≤ n) (hlt : n < 2 ^ 128) :
    flPos ((n : ℚ) / 2 ^ 52) = ((roundedNat n : ℕ) : ℚ) / 2 ^ 52 := by
  obtain ⟨hL1, hlow, hhigh⟩ := bitLength_spec n hlt h1
  set L := bitLength n with hLdef
  have hn0 : (0 : ℚ) < (n : ℚ) := by exact_mod_cast h1
  have hq0 : (0 : ℚ) < (n : ℚ) / 2 ^ 52 := by positivity
  have hzp : ∀ a : ℕ, ((2 ^ a : ℕ) : ℚ) = (2 : ℚ) ^ (a : ℤ) := by
    intro a
    push_cast
    rw [zpow_natCast]
  have hlowq : (2 : ℚ) ^ ((L : ℤ) - 53) ≤ (n : ℚ) / 2 ^ 52 := by
    have ha : ((2 ^ (L - 1) : ℕ) : ℚ) ≤ (n : ℚ) := by exact_mod_cast hlow
    calc (2 : ℚ) ^ ((L : ℤ) - 53)
        = ((2 ^ (L - 1) : ℕ) : ℚ) / 2 ^ 52 := by
          rw [hzp, ← zpow_natCast (2 : ℚ) 52,
            ← zpow_sub₀ (by norm_num : (2 : ℚ) ≠ 0)]
          congr 1
          push_cast [hL1]
          ring
      _ ≤ (n : ℚ) / 2 ^ 52 := by gcongr
  have hhighq : (n : ℚ) / 2 ^ 52 < (2 : ℚ) ^ ((L : ℤ) - 53 + 1) := by
    have hb : (n : ℚ) < ((2 ^ L : ℕ) : ℚ) := by exact_mod_cast hhigh
    calc (n : ℚ) / 2 ^ 52 < ((2 ^ L : ℕ) : ℚ) / 2 ^ 52 := by gcongr
      _ = (2 : ℚ) ^ ((L : ℤ) - 53 + 1) := by
          rw [hzp, ← zpow_natCast (2 : ℚ) 52,
            ← zpow_sub₀ (by norm_num : (2 : ℚ) ≠ 0)]
          congr 1
          ring
  have he : Int.log 2 ((n : ℚ) / 2 ^ 52) = (L : ℤ) - 53 :=
    log2_unique _ _ hq0 hlowq hhighq
  unfold flPos
  rw [he]
  by_cases hL53 : L ≤ 53
  · have harg : (n : ℚ) / 2 ^ 52 * (2 : ℚ) ^ (52 - ((L : ℤ) - 53))
        = ((n * 2 ^ (53 - L) : ℕ) : ℚ) := by
      rw [div_mul_eq_mul_div, mul_div_assoc, ← zpow_natCast (2 : ℚ) 52,
        ← zpow_sub₀ (by norm_num : (2 : ℚ) ≠ 0)]
      push_cast
      rw [← zpow_natCast (2 : ℚ) (53 - L)]
      congr 1
      push_cast [hL53]
      ring
    rw [harg]
    rw [show (((n * 2 ^ (53 - L) : ℕ) : ℚ)) = ((((n * 2 ^ (53 - L) : ℕ) : ℤ)) : ℚ) from
      (Int.cast_natCast _).symm]
    rw [rne_intCast]
    rw [show roundedNat n = n from by unfold roundedNat; rw [← hLdef, if_pos hL53]]
    rw [show ((((n * 2 ^ (53 - L) : ℕ) : ℤ)) : ℚ)
        = (n : ℚ) * (2 : ℚ) ^ (((53 - L : ℕ)) : ℤ) from by
      push_cast
      rw [zpow_natCast]]
    rw [mul_assoc, ← zpow_add₀ (by norm_num : (2 : ℚ) ≠ 0)]
    rw [show (((53 - L : ℕ)) : ℤ) + ((L : ℤ) - 53 - 52) = -52 from by
      push_cast [hL53]
      ring]
    rw [show ((2 : ℚ)) ^ (-52 : ℤ) = ((2 : ℚ) ^ (52 : ℕ))⁻¹ from by
      rw [zpow_neg]
      norm_num]
    rw [div_eq_mul_inv]
  · have hs1 : 1 ≤ L - 53 := by omega
    have harg : (n : ℚ) / 2 ^ 52 * (2 : ℚ) ^ (52 - ((L : ℤ) - 53))
        = (n : ℚ) / 2 ^ (L - 53) := by
      rw [div_mul_eq_mul_div, mul_div_assoc, ← zpow_natCast (2 : ℚ) 52,
        ← zpow_sub₀ (by norm_num : (2 : ℚ) ≠ 0)]
      rw [div_eq_mul_inv (n : ℚ), ← zpow_neg_one, ← zpow_natCast (2 : ℚ) (L - 53),
        ← zpow_mul]
      congr 1
      push_cast [show (53 : ℕ) ≤ L from by omega]
      ring
    rw [harg, rne_natCast_div n (L - 53) hs1]
    rw [show roundedNat n
        = (if 2 ^ (L - 53 - 1) < n % 2 ^ (L - 53) then n / 2 ^ (L - 53) + 1
           else if n % 2 ^ (L - 53) < 2 ^ (L - 53 - 1) then n / 2 ^ (L - 53)
           else if (n / 2 ^ (L - 53)) % 2 = 0 then n / 2 ^ (L - 53)
           else n / 2 ^ (L - 53) + 1) * 2 ^ (L - 53) from by
      unfold roundedNat
      rw [← hLdef, if_neg hL53]]
    set M : ℕ := (if 2 ^ (L - 53 - 1) < n % 2 ^ (L - 53) then n / 2 ^ (L - 53) + 1
      else if n % 2 ^ (L - 53) < 2 ^ (L - 53 - 1) then n / 2 ^ (L - 53)
      else if (n / 2 ^ (L - 53)) % 2 = 0 then n / 2 ^ (L - 53)
      else n / 2 ^ (L - 53) + 1) with hM
    rw [Int.cast_natCast]
    rw [show ((M * 2 ^ (L - 53) : ℕ) : ℚ) = (M : ℚ) * (2 : ℚ) ^ (((L - 53 : ℕ)) : ℤ) from by
      push_cast
      rw [zpow_natCast]]
    rw [mul_div_assoc]
    congr 1
    rw [← zpow_natCast (2 : ℚ) 52, ← zpow_sub₀ (by norm_num : (2 : ℚ) ≠ 0)]
    congr 1
    push_cast [show (53 : ℕ) ≤ L from by omega]
    ring

/-- Helper: the integer implementation floorAfterRound agrees with flooring
the real-number binary64 rounding of p over 2 to the 52, for every p the
pipeline can produce. -/
theorem floorAfterRound_eq (p : ℤ) (hp : p.natAbs < 2 ^ 128) :
    floorAfterRound p = ⌊fl ((p : ℚ) / 2 ^ 52)⌋ := by
  rcases lt_trichotomy p 0 with hneg | hzero | hpos
  · have h1 : 1 ≤ p.natAbs := by omega
    have hcast : (p : ℚ) = -((p.natAbs : ℕ) : ℚ) := by
      rw [Int.cast_natAbs, abs_of_neg hneg]
      push_cast
      ring
    have hq0 : (p : ℚ) / 2 ^ 52 < 0 := by
      apply div_neg_of_neg_of_pos _ (by positivity)
      rw [hcast]
      have : (0 : ℚ) < ((p.natAbs : ℕ) : ℚ) := by exact_mod_cast h1
      linarith
    unfold fl
    rw [if_neg (ne_of_lt hq0), if_neg (by linarith)]
    rw [show -((p : ℚ) / 2 ^ 52) = ((p.natAbs : ℕ) : ℚ) / 2 ^ 52 from by
      rw [hcast]
      ring]
    rw [flPos_natCast_div p.natAbs h1 hp]
    rw [show -(((roundedNat p.natAbs : ℕ) : ℚ) / 2 ^ 52)
        = ((-(roundedNat p.natAbs : ℤ) : ℤ) : ℚ) / (((2 ^ 52 : ℕ) : ℕ) : ℚ) from by
      push_cast
      ring]
    rw [Rat.floor_intCast_div_natCast]
    unfold floorAfterRound
    rw [Int.sign_eq_neg_one_of_neg hneg]
    norm_num
  · subst hzero
    rw [show floorAfterRound 0 = 0 from by decide]
    norm_num [fl]
  · have h1 : 1 ≤ p.natAbs := by omega
    have hcast : (p : ℚ) = ((p.natAbs : ℕ) : ℚ) := by
      rw [Int.cast_natAbs, abs_of_pos hpos]
    have hq0 : (0 : ℚ) < (p : ℚ) / 2 ^ 52 := by
      apply div_pos _ (by positivity)
      rw [hcast]
      exact_mod_cast h1
    unfold fl
    rw [if_neg (ne_of_gt hq0), if_pos hq0]
    rw [hcast, flPos_natCast_div p.natAbs h1 hp]
    rw [show ((roundedNat p.natAbs : ℕ) : ℚ) / 2 ^ 52
        = (((roundedNat p.natAbs : ℤ) : ℤ) : ℚ) / (((2 ^ 52 : ℕ) : ℕ) : ℚ) from by
      push_cast
      ring]
    rw [Rat.floor_intCast_div_natCast]
    unfold floorAfterRound
    rw [Int.sign_eq_one_of_pos hpos]
    norm_num

/-- Helper: each significand constant of mantissaOf is exactly the decimal
multiplier literal of the source, scaled by 2 to the 52 and rounded to the
nearest integer with ties to even - the binary64 value JavaScript stores
for 1.1, 1.4, 1.7 and 1.0. -/
theorem mantissaOf_eq_rne (role : String) :
    mantissaOf role = rne (specMultiplier role * 2 ^ 52) := by
  unfold mantissaOf specMultiplier
  split_ifs
  · rw [show (11 / 10 : ℚ) * 2 ^ 52 = (49539595901075456 : ℚ) / 10 from by norm_num]
    unfold rne
    rw [show ⌊(49539595901075456 : ℚ) / 10⌋ = (4953959590107545 : ℤ) from by norm_num]
    norm_num
  · rw [show (14 / 10 : ℚ) * 2 ^ 52 = (63050394783186944 : ℚ) / 10 from by norm_num]
    unfold rne
    rw [show ⌊(63050394783186944 : ℚ) / 10⌋ = (6305039478318694 : ℤ) from by norm_num]
    norm_num
  · rw [show (17 / 10 : ℚ) * 2 ^ 52 = (76561193665298432 : ℚ) / 10 from by norm_num]
    unfold rne
    rw [show ⌊(76561193665298432 : ℚ) / 10⌋ = (7656119366529843 : ℤ) from by norm_num]
    norm_num
  · rw [show (1 : ℚ) * 2 ^ 52 = ((4503599627370496 : ℤ) : ℚ) from by norm_num]
    rw [rne_intCast]
  · rw [show (1 : ℚ) * 2 ^ 52 = ((4503599627370496 : ℤ) : ℚ) from by norm_num]
    rw [rne_intCast]

/-- C1 counterexample: the program computes points with binary64 doubles,
so Math.floor(45 * 1.4) is Math.floor(62.99999999999999) = 62 at amount
4500 with role LOYAL, while the claimed exact formula floor(floor(4500 /
100) * 1.4) gives 63; the universal floor-of-exact-product claim is false
of the code. -/
theorem calculatePoints_float_gap :
    calculatePoints 4500 "LOYAL" = 62
    ∧ ⌊(⌊((4500 : Int) : ℚ) / 100⌋ : ℚ) * specMultiplier "LOYAL"⌋ = 63 := by
  refine ⟨by decide, ?_⟩
  have h1 : ⌊((4500 : Int) : ℚ) / 100⌋ = (45 : ℤ) := by norm_num
  rw [h1]
  rw [show ((45 : ℤ) : ℚ) * specMultiplier "LOYAL" = (63 : ℚ) from by
    rw [show specMultiplier "LOYAL" = 14 / 10 from rfl]
    norm_num]
  exact Int.floor_intCast 63

/-- C1 amended: for every strictly positive integer amount exactly
representable in binary64 (amount at most 2 to the 53) and every role,
calculatePoints returns the floor of the binary64-rounded product of
floor(amount / 100) with the multiplier double m, where m is significand
over 2 to the 52 and the significand is the decimal literal - 1.1 for
NORMAL, 1.4 for LOYAL, 1.7 for OWNER, 1.0 for ADMIN and for any
unrecognized role - scaled by 2 to the 52 and rounded to nearest, ties to
even. Because 1.4 and 1.7 round below their decimals the result can fall
one short of the exact formula (62 at amount 4500 with LOYAL); the claim's
instances 2500 with NORMAL giving 27 and 99 giving 0 for every role do
hold. -/
theorem calculatePoints_ieee (amount : Int) (role : String)
    (hpos : 0 < amount) (hrep : amount ≤ 2 ^ 53) :
    calculatePoints amount role
      = ⌊fl (((amount / 100 : ℤ) : ℚ) * ((mantissaOf role : ℤ) : ℚ) / 2 ^ 52)⌋
    ∧ mantissaOf role = rne (specMultiplier role * 2 ^ 52)
    ∧ calculatePoints 2500 "NORMAL" = 27
    ∧ ∀ r, calculatePoints 99 r = 0 := by
  refine ⟨?_, mantissaOf_eq_rne role, by decide, fun r => ?_⟩
  · have hb0 : 0 ≤ amount / 100 := Int.ediv_nonneg hpos.le (by norm_num)
    have hbu : amount / 100 ≤ 2 ^ 53 := le_trans (Int.ediv_le_self 100 hpos.le) hrep
    have hm : 0 ≤ mantissaOf role ∧ mantissaOf role ≤ 2 ^ 53 := by
      unfold mantissaOf
      split_ifs <;> norm_num
    have hp0 : 0 ≤ amount / 100 * mantissaOf role := mul_nonneg hb0 hm.1
    have hpu : amount / 100 * mantissaOf role ≤ 2 ^ 106 := by
      calc amount / 100 * mantissaOf role
          ≤ 2 ^ 53 * 2 ^ 53 := mul_le_mul hbu hm.2 hm.1 (by norm_num)
        _ = 2 ^ 106 := by norm_num
    have hnat : (amount / 100 * mantissaOf role).natAbs < 2 ^ 128 := by
      have h1 : ((amount / 100 * mantissaOf role).natAbs : ℤ)
          = amount / 100 * mantissaOf role := Int.natAbs_of_nonneg hp0
      have h2 : ((amount / 100 * mantissaOf role).natAbs : ℤ) < 2 ^ 128 := by
        rw [h1]
        calc amount / 100 * mantissaOf role ≤ 2 ^ 106 := hpu
          _ < 2 ^ 128 := by norm_num
      exact_mod_cast h2
    rw [show ((amount / 100 : ℤ) : ℚ) * ((mantissaOf role : ℤ) : ℚ) / 2 ^ 52
        = ((amount / 100 * mantissaOf role : ℤ) : ℚ) / 2 ^ 52 from by
      push_cast
      ring]
    exact floorAfterRound_eq _ hnat
  · show floorAfterRound ((99 : Int) / 100 * mantissaOf r) = 0
    rw [show (99 : Int) / 100 = 0 from by decide, zero_mul]
    decide

/-- Witness for the amended C1 at amount 4500 and role LOYAL. -/
theorem calculatePoints_ieee_witness :
    (0 : Int) < 4500 ∧ (4500 : Int) ≤ 2 ^ 53
    ∧ (calculatePoints 4500 "LOYAL"
        = ⌊fl ((((4500 : Int) / 100 : ℤ) : ℚ)
            * ((mantissaOf "LOYAL" : ℤ) : ℚ) / 2 ^ 52)⌋
      ∧ mantissaOf "LOYAL" = rne (specMultiplier "LOYAL" * 2 ^ 52)
      ∧ calculatePoints 2500 "NORMAL" = 27
      ∧ ∀ r, calculatePoints 99 r = 0) :=
  ⟨by decide, by decide, calculatePoints_ieee 4500 "LOYAL" (by decide) (by decide)⟩

/-- C2 counterexample: with current role OWNER and post-increment visit
count 25 (reachable after an administrator edits the visit count downward,
or grants OWNER directly), the promotion step of purchase recording
computes LOYAL, a strictly lower role in the order NORMAL < LOYAL < OWNER;
the claim that the step never lowers any current role is false. -/
theorem roleAfterVisit_downgrades_owner :
    roleAfterVisit "OWNER" 25 = "LOYAL"
    ∧ roleRank (roleAfterVisit "OWNER" 25) < roleRank "OWNER" := by
  decide

/-- C2 amended: the promotion step never lowers a customer whose current
role is NORMAL or LOYAL, for any post-increment visit count; for a current
role of OWNER or ADMIN the step can overwrite the role downward (the
counterexample), so the no-downgrade guarantee does not extend to visit
counts edited downward. -/
theorem roleAfterVisit_no_downgrade_from_low_roles (r : String) (n : Nat)
    (h : r = "NORMAL" ∨ r = "LOYAL") :
    roleRank r ≤ roleRank (roleAfterVisit r n) := by
  rcases h with h | h <;> subst h <;> unfold roleAfterVisit <;>
    split_ifs <;> decide

/-- Witness for the amended C2 at role LOYAL and visit count 7. -/
theorem roleAfterVisit_no_downgrade_from_low_roles_witness :
    ("LOYAL" = "NORMAL" ∨ "LOYAL" = "LOYAL")
    ∧ roleRank "LOYAL" ≤ roleRank (roleAfterVisit "LOYAL" 7) :=
  ⟨Or.inr rfl, roleAfterVisit_no_downgrade_from_low_roles "LOYAL" 7 (Or.inr rfl)⟩

/-- C3 counterexample: the claim says an ADMIN stays ADMIN for every visit
count, but the promotion expression in the source has no ADMIN case; at
post-increment count 20 an ADMIN customer's role is computed as LOYAL. -/
theorem roleAfterVisit_demotes_admin :
    roleAfterVisit "ADMIN" 20 = "LOYAL"
    ∧ roleAfterVisit "ADMIN" 20 ≠ "ADMIN" := by
  decide

/-- C3 amended: for every current role - ADMIN included, the source having
no admin case - the promotion step returns OWNER at post-increment counts
of 50 and above, LOYAL at counts 20 to 49, and the current role unchanged
below 20; recording a purchase for a customer with 19 prior visits promotes
to LOYAL exactly at the twentieth visit, while one with 18 prior visits
keeps its role. -/
theorem roleAfterVisit_thresholds (r : String) (n : Nat) (st : State)
    (cid : String) (amount : Int) (receipt : String) (c : Customer)
    (hc : st.customers.find? (fun x => x.id == cid) = some c) :
    (50 ≤ n → roleAfterVisit r n = "OWNER")
    ∧ (20 ≤ n → n < 50 → roleAfterVisit r n = "LOYAL")
    ∧ (n < 20 → roleAfterVisit r n = r)
    ∧ (c.visitCount = 19 →
        ∃ p upd st', createPurchase cid amount receipt st = .ok (p, upd, st')
          ∧ upd.visitCount = 20 ∧ upd.role = "LOYAL")
    ∧ (c.visitCount = 18 →
        ∃ p upd st', createPurchase cid amount receipt st = .ok (p, upd, st')
          ∧ upd.role = c.role) := by
  refine ⟨?_, ?_, ?_, ?_, ?_⟩
  · intro h
    unfold roleAfterVisit
    rw [if_pos h]
  · intro h1 h2
    unfold roleAfterVisit
    rw [if_neg (by omega), if_pos h1]
  · intro h
    unfold roleAfterVisit
    rw [if_neg (by omega), if_neg (by omega)]
  · intro h19
    unfold createPurchase
    rw [hc]
    refine ⟨_, _, _, rfl, ?_, ?_⟩
    · show c.visitCount + 1 = 20
      omega
    · show roleAfterVisit c.role (c.visitCount + 1) = "LOYAL"
      rw [h19]
      unfold roleAfterVisit
      norm_num
  · intro h18
    unfold createPurchase
    rw [hc]
    refine ⟨_, _, _, rfl, ?_⟩
    show roleAfterVisit c.role (c.visitCount + 1) = c.role
    rw [h18]
    unfold roleAfterVisit
    norm_num

/-- Witness for the amended C3: a one-customer store with 19 prior visits. -/
theorem roleAfterVisit_thresholds_witness :
    (sampleState 5 19 "NORMAL").customers.find? (fun x => x.id == "c1")
      = some (sampleCustomer 5 19 "NORMAL")
    ∧ ((50 ≤ 20 → roleAfterVisit "NORMAL" 20 = "OWNER")
      ∧ (20 ≤ 20 → 20 < 50 → roleAfterVisit "NORMAL" 20 = "LOYAL")
      ∧ (20 < 20 → roleAfterVisit "NORMAL" 20 = "NORMAL")
      ∧ ((sampleCustomer 5 19 "NORMAL").visitCount = 19 →
          ∃ p upd st',
            createPurchase "c1" 2500 "RCP-1" (sampleState 5 19 "NORMAL")
              = .ok (p, upd, st')
            ∧ upd.visitCount = 20 ∧ upd.role = "LOYAL")
      ∧ ((sampleCustomer 5 19 "NORMAL").visitCount = 18 →
          ∃ p upd st',
            createPurchase "c1" 2500 "RCP-1" (sampleState 5 19 "NORMAL")
              = .ok (p, upd, st')
            ∧ upd.role = (sampleCustomer 5 19 "NORMAL").role)) :=
  ⟨by decide,
    roleAfterVisit_thresholds "NORMAL" 20 (sampleState 5 19 "NORMAL") "c1"
      2500 "RCP-1" (sampleCustomer 5 19 "NORMAL") (by decide)⟩

/-- Helper: every operation leaves the purchase table unchanged or appends
exactly one row; stored purchase rows, with their frozen pointsEarned, are
never rewritten. -/
theorem step_purchases_append (op : Op) (st : State) :
    (step op st).purchases = st.purchases
    ∨ ∃ q, (step op st).purchases = st.purchases ++ [q] := by
  cases op with
  | opCreateCustomer id lid name email phone =>
    left
    simp only [step]
    unfold createCustomer
    split_ifs <;> rfl
  | opRecordPurchase cid amount receipt =>
    simp only [step]
    split_ifs with h
    · rcases hf : st.customers.find? (fun c => c.id == cid) with _ | c
      · left
        unfold createPurchase
        rw [hf]
      · right
        unfold createPurchase
        rw [hf]
        exact ⟨_, rfl⟩
    · left
      rfl
  | opCreateCoupon actor cid year =>
    left
    simp only [step]
    unfold createCoupon
    split_ifs with h1
    · rfl
    · rcases hf : st.customers.find? (fun c => c.id == cid) with _ | c
      · rw [hf]
      · simp only [hf]
        split_ifs with h2 <;> rfl
  | opRedeemCoupon code now =>
    left
    simp only [step]
    unfold redeemCoupon
    rcases hf : st.coupons.find? (fun c => c.code == code) with _ | c
    · rw [hf]
    · simp only [hf]
      split_ifs with h2 <;> rfl
  | opUpdateCustomer actor id u =>
    left
    simp only [step]
    split_ifs with hv
    · unfold updateCustomer
      split_ifs with h1 h2
      · rfl
      · rfl
      · rcases hf : st.customers.find? (fun c => c.id == id) with _ | c
        · rw [hf]
        · rw [hf]
    · rfl

/-- C6: recording a purchase for an existing customer applies exactly these
effects: one purchase row is appended whose pointsEarned equals
calculatePoints of the amount and the pre-purchase role, the customer's
points grow by that pointsEarned, totalSpent by the amount, visitCount by
one, the role is recomputed from the post-increment visit count, every
other customer field, every other customer and the coupon table are
untouched - and purchase rows, this one included, are never modified by any
later operation. -/
theorem createPurchase_effects (cid : String) (amount : Int)
    (receipt : String) (st : State) (customer : Customer)
    (hpos : 0 < amount)
    (hc : st.customers.find? (fun x => x.id == cid) = some customer) :
    ∃ p upd st',
      createPurchase cid amount receipt st = .ok (p, upd, st')
      ∧ p.pointsEarned = calculatePoints amount customer.role
      ∧ p.customerId = cid ∧ p.amount = amount ∧ p.receiptNumber = receipt
      ∧ upd.points = customer.points + calculatePoints amount customer.role
      ∧ upd.totalSpent = customer.totalSpent + amount
      ∧ upd.visitCount = customer.visitCount + 1
      ∧ upd.role = roleAfterVisit customer.role (customer.visitCount + 1)
      ∧ upd.id = customer.id ∧ upd.loyaltyId = customer.loyaltyId
      ∧ upd.name = customer.name ∧ upd.email = customer.email
      ∧ upd.phone = customer.phone
      ∧ st'.purchases = st.purchases ++ [p]
      ∧ st'.coupons = st.coupons
      ∧ st'.customers
          = updateFirst (fun x => x.id == cid) (fun _ => upd) st.customers
      ∧ ∀ op st₀, (step op st₀).purchases = st₀.purchases
          ∨ ∃ q, (step op st₀).purchases = st₀.purchases ++ [q] := by
  unfold createPurchase
  rw [hc]
  exact ⟨_, _, _, rfl, rfl, rfl, rfl, rfl, rfl, rfl, rfl, rfl, rfl, rfl,
    rfl, rfl, rfl, rfl, rfl, rfl, step_purchases_append⟩

/-- Witness for C6: a 2500-unit purchase for a stored NORMAL customer. -/
theorem createPurchase_effects_witness :
    (0 : Int) < 2500
    ∧ (sampleState 85 12 "NORMAL").customers.find? (fun x => x.id == "c1")
        = some (sampleCustomer 85 12 "NORMAL")
    ∧ ∃ p upd st',
        createPurchase "c1" 2500 "RCP-1" (sampleState 85 12 "NORMAL")
          = .ok (p, upd, st')
        ∧ p.pointsEarned = calculatePoints 2500 "NORMAL"
        ∧ upd.points = 85 + calculatePoints 2500 "NORMAL"
        ∧ upd.visitCount = 13 := by
  refine ⟨by decide, by decide, ?_⟩
  obtain ⟨p, upd, st', h1, h2, _, _, _, h6, _, h8, _⟩ :=
    createPurchase_effects "c1" 2500 "RCP-1" (sampleState 85 12 "NORMAL")
      (sampleCustomer 85 12 "NORMAL") (by decide) (by decide)
  exact ⟨p, upd, st', h1, h2, h6, h8⟩

/-- Helper: a store update that rewrites exactly the rows matching p, with a
rewrite that keeps them matching, leaves the rewritten first match as the
first match of the new table. -/
theorem find?_updateFirst {α : Type} (p : α → Bool) (f : α → α)
    (hp : ∀ a, p a = true → p (f a) = true) :
    ∀ (l : List α) (x : α), l.find? p = some x →
      (updateFirst p f l).find? p = some (f x) := by
  intro l
  induction l with
  | nil =>
    intro x h
    simp at h
  | cons a as ih =>
    intro x h
    by_cases ha : p a = true
    · rw [List.find?_cons_of_pos _ ha] at h
      injection h with h
      subst h
      unfold updateFirst
      rw [if_pos ha, List.find?_cons_of_pos _ (hp a ha)]
    · rw [List.find?_cons_of_neg _ ha] at h
      unfold updateFirst
      rw [if_neg ha, List.find?_cons_of_neg _ ha]
      exact ih x h

/-- Helper: a row of an updated table is either an original row or the
rewrite of the first match of the original table. -/
theorem mem_updateFirst {α : Type} (p : α → Bool) (f : α → α) :
    ∀ (l : List α) (c : α), c ∈ updateFirst p f l →
      c ∈ l ∨ ∃ x, l.find? p = some x ∧ c = f x := by
  intro l
  induction l with
  | nil =>
    intro c h
    simp [updateFirst] at h
  | cons a as ih =>
    intro c h
    unfold updateFirst at h
    by_cases ha : p a = true
    · rw [if_pos ha] at h
      rcases List.mem_cons.mp h with h1 | h1
      · exact Or.inr ⟨a, List.find?_cons_of_pos _ ha, h1⟩
      · exact Or.inl (List.mem_cons_of_mem a h1)
    · rw [if_neg ha] at h
      rcases List.mem_cons.mp h with h1 | h1
      · exact Or.inl (h1 ▸ List.mem_cons_self a as)
      · rcases ih c h1 with h2 | ⟨x, hx1, hx2⟩
        · exact Or.inl (List.mem_cons_of_mem a h2)
        · exact Or.inr ⟨x, by rw [List.find?_cons_of_neg _ ha]; exact hx1, hx2⟩

/-- Helper: the InsufficientPoints branch of createCoupon, for any actor
passing the ownership guard. -/
theorem createCoupon_insufficient (actor : Actor) (cid : String)
    (year : Nat) (st : State) (cust : Customer)
    (hg : ¬(actor.role ≠ "ADMIN" ∧ actor.id ≠ cid))
    (hc : st.customers.find? (fun x => x.id == cid) = some cust)
    (hp : cust.points < 100) :
    createCoupon actor cid year st = .error .insufficientPoints := by
  unfold createCoupon
  rw [if_neg hg]
  simp only [hc]
  rw [if_pos hp]

/-- Helper: the AlreadyRedeemed branch of redeemCoupon. -/
theorem redeemCoupon_already (code : String) (now : Nat) (st : State)
    (c : Coupon) (hf : st.coupons.find? (fun x => x.code == code) = some c)
    (hr : c.redeemed = true) :
    redeemCoupon code now st = .error .alreadyRedeemed := by
  unfold redeemCoupon
  simp only [hf]
  rw [if_pos hr]

/-- C4: for an existing customer invoking coupon creation on themselves,
the request fails with InsufficientPoints exactly when the stored points
are below 100 - the controller returns before the transaction, so the
state is untouched on that path - and with at least 100 points it
succeeds: the new coupon carries value 1000 and redeemed false, the
customer's points drop by exactly 100 while purchases are untouched, and
with exactly 100 points the creation leaves zero points, a second attempt
then failing with InsufficientPoints. -/
theorem createCoupon_points_rule (actor : Actor) (cid : String) (year : Nat)
    (st : State) (cust : Customer)
    (hself : actor.id = cid)
    (hc : st.customers.find? (fun x => x.id == cid) = some cust) :
    (cust.points < 100 →
      createCoupon actor cid year st = .error .insufficientPoints)
    ∧ (100 ≤ cust.points →
      ∃ c st', createCoupon actor cid year st = .ok (c, st')
        ∧ c.value = 1000 ∧ c.redeemed = false ∧ c.customerId = cid
        ∧ st'.customers.find? (fun x => x.id == cid)
            = some { cust with points := cust.points - 100 }
        ∧ st'.purchases = st.purchases
        ∧ st'.coupons = st.coupons ++ [c]
        ∧ (cust.points = 100 →
            ({ cust with points := cust.points - 100 } : Customer).points = 0
            ∧ createCoupon actor cid year st'
                = .error .insufficientPoints)) := by
  have hg : ¬(actor.role ≠ "ADMIN" ∧ actor.id ≠ cid) := fun h => h.2 hself
  have hf2 := find?_updateFirst (fun x => x.id == cid)
    (fun a => { a with points := a.points - 100 }) (fun a h => h)
    st.customers cust hc
  constructor
  · exact fun hp => createCoupon_insufficient actor cid year st cust hg hc hp
  · intro hp
    unfold createCoupon
    rw [if_neg hg]
    simp only [hc]
    rw [if_neg (by omega)]
    refine ⟨_, _, rfl, rfl, rfl, rfl, hf2, rfl, rfl, ?_⟩
    intro h100
    refine ⟨by simp [h100], ?_⟩
    exact createCoupon_insufficient actor cid year _
      { cust with points := cust.points - 100 } hg hf2 (by simp [h100])

/-- Witness for C4: a customer with exactly 100 points creating a coupon
for themselves. -/
theorem createCoupon_points_rule_witness :
    (Actor.mk "c1" "NORMAL").id = "c1"
    ∧ (sampleState 100 12 "NORMAL").customers.find? (fun x => x.id == "c1")
        = some (sampleCustomer 100 12 "NORMAL")
    ∧ (((sampleCustomer 100 12 "NORMAL").points < 100 →
        createCoupon (Actor.mk "c1" "NORMAL") "c1" 2024
          (sampleState 100 12 "NORMAL") = .error .insufficientPoints)
      ∧ (100 ≤ (sampleCustomer 100 12 "NORMAL").points →
        ∃ c st',
          createCoupon (Actor.mk "c1" "NORMAL") "c1" 2024
              (sampleState 100 12 "NORMAL") = .ok (c, st')
          ∧ c.value = 1000 ∧ c.redeemed = false ∧ c.customerId = "c1"
          ∧ st'.customers.find? (fun x => x.id == "c1")
              = some { sampleCustomer 100 12 "NORMAL" with
                        points := (sampleCustomer 100 12 "NORMAL").points - 100 }
          ∧ st'.purchases = (sampleState 100 12 "NORMAL").purchases
          ∧ st'.coupons = (sampleState 100 12 "NORMAL").coupons ++ [c]
          ∧ ((sampleCustomer 100 12 "NORMAL").points = 100 →
              ({ sampleCustomer 100 12 "NORMAL" with
                  points := (sampleCustomer 100 12 "NORMAL").points - 100 }
                : Customer).points = 0
              ∧ createCoupon (Actor.mk "c1" "NORMAL") "c1" 2024 st'
                  = .error .insufficientPoints))) :=
  ⟨rfl, by decide,
    createCoupon_points_rule (Actor.mk "c1" "NORMAL") "c1" 2024
      (sampleState 100 12 "NORMAL") (sampleCustomer 100 12 "NORMAL") rfl
      (by decide)⟩

/-- C5: redemption by code fails with NotFound exactly when no stored
coupon carries the code, fails with AlreadyRedeemed when the matching
coupon is already redeemed, and otherwise succeeds, setting redeemed and
redeemedAt on that coupon while customers and purchases are untouched;
a second redemption of the same code on the resulting state fails with
AlreadyRedeemed. On both failure paths the controller returns before any
write, so the state is unchanged. -/
theorem redeemCoupon_rules (code : String) (now : Nat) (st : State) :
    ((∀ c ∈ st.coupons, (c.code == code) = false) →
      redeemCoupon code now st = .error .notFound)
    ∧ (∀ c, st.coupons.find? (fun x => x.code == code) = some c →
        c.redeemed = true →
        redeemCoupon code now st = .error .alreadyRedeemed)
    ∧ (∀ c, st.coupons.find? (fun x => x.code == code) = some c →
        c.redeemed = false →
        ∃ c' st', redeemCoupon code now st = .ok (c', st')
          ∧ c'.redeemed = true ∧ c'.redeemedAt = some now
          ∧ c'.code = c.code ∧ c'.customerId = c.customerId
          ∧ c'.value = c.value
          ∧ st'.customers = st.customers
          ∧ st'.purchases = st.purchases
          ∧ redeemCoupon code now st' = .error .alreadyRedeemed) := by
  refine ⟨?_, ?_, ?_⟩
  · intro h
    unfold redeemCoupon
    rw [List.find?_eq_none.mpr fun x hx => by simp [h x hx]]
  · exact fun c hf hr => redeemCoupon_already code now st c hf hr
  · intro c hf hr
    have hp0 := List.find?_some hf
    have hf2 := find?_updateFirst (fun x => x.code == code)
      (fun _ => { c with redeemed := true, redeemedAt := some now })
      (fun a _ => hp0) st.coupons c hf
    unfold redeemCoupon
    simp only [hf]
    rw [if_neg (by simp [hr])]
    refine ⟨_, _, rfl, rfl, rfl, rfl, rfl, rfl, rfl, rfl, ?_⟩
    exact redeemCoupon_already code now _
      { c with redeemed := true, redeemedAt := some now } hf2 rfl

/-- Witness for C5: a store holding one unredeemed coupon with the looked-up
code. -/
theorem redeemCoupon_rules_witness :
    (State.mk [] []
        [{ code := "COUP-2024-001", customerId := "c1", value := 1000,
           redeemed := false, redeemedAt := none }]).coupons.find?
        (fun x => x.code == "COUP-2024-001")
      = some { code := "COUP-2024-001", customerId := "c1", value := 1000,
               redeemed := false, redeemedAt := none }
    ∧ ∃ c' st',
        redeemCoupon "COUP-2024-001" 77
            (State.mk [] []
              [{ code := "COUP-2024-001", customerId := "c1", value := 1000,
                 redeemed := false, redeemedAt := none }])
          = .ok (c', st')
        ∧ c'.redeemed = true ∧ c'.redeemedAt = some 77
        ∧ c'.code = "COUP-2024-001" ∧ c'.customerId = "c1" ∧ c'.value = 1000
        ∧ st'.customers = [] ∧ st'.purchases = []
        ∧ redeemCoupon "COUP-2024-001" 77 st' = .error .alreadyRedeemed := by
  refine ⟨by decide, ?_⟩
  obtain ⟨c', st', h⟩ :=
    (redeemCoupon_rules "COUP-2024-001" 77
          (State.mk [] []
            [{ code := "COUP-2024-001", customerId := "c1", value := 1000,
               redeemed := false, redeemedAt := none }])).2.2
      { code := "COUP-2024-001", customerId := "c1", value := 1000,
        redeemed := false, redeemedAt := none } (by decide) rfl
  exact ⟨c', st', h⟩

/-- C10: an ADMIN actor bypasses the self-service ownership check of coupon
creation entirely: the request is never rejected as Forbidden whatever the
target, and for any stored customer with at least 100 points it succeeds,
deducting 100 of that customer's points - while for a non-admin actor any
target other than themselves is rejected as Forbidden. -/
theorem createCoupon_admin_bypass (actor : Actor) (cid : String)
    (year : Nat) (st : State) (hadmin : actor.role = "ADMIN") :
    (createCoupon actor cid year st ≠ .error .forbidden)
    ∧ (∀ cust, st.customers.find? (fun x => x.id == cid) = some cust →
        100 ≤ cust.points →
        ∃ c st', createCoupon actor cid year st = .ok (c, st')
          ∧ st'.customers.find? (fun x => x.id == cid)
              = some { cust with points := cust.points - 100 })
    ∧ (∀ a : Actor, a.role ≠ "ADMIN" → a.id ≠ cid →
        createCoupon a cid year st = .error .forbidden) := by
  have hg : ¬(actor.role ≠ "ADMIN" ∧ actor.id ≠ cid) := fun h => h.1 hadmin
  refine ⟨?_, ?_, ?_⟩
  · unfold createCoupon
    rw [if_neg hg]
    rcases hf : st.customers.find? (fun x => x.id == cid) with _ | c
    · simp only [hf]
      intro hfalse
      injection hfalse with h
      exact absurd h (by decide)
    · simp only [hf]
      split_ifs with hpts
      · intro hfalse
        injection hfalse with h
        exact absurd h (by decide)
      · intro hfalse
        exact Except.noConfusion hfalse
  · intro cust hf h100
    unfold createCoupon
    rw [if_neg hg]
    simp only [hf]
    rw [if_neg (by omega)]
    exact ⟨_, _, rfl,
      find?_updateFirst (fun x => x.id == cid)
        (fun a => { a with points := a.points - 100 }) (fun a h => h)
        st.customers cust hf⟩
  · intro a h1 h2
    unfold createCoupon
    rw [if_pos ⟨h1, h2⟩]

/-- Witness for C10: an admin creating a coupon for another customer who
holds 150 points. -/
theorem createCoupon_admin_bypass_witness :
    (Actor.mk "a9" "ADMIN").role = "ADMIN"
    ∧ (createCoupon (Actor.mk "a9" "ADMIN") "c1" 2024
          (sampleState 150 12 "NORMAL") ≠ .error .forbidden)
    ∧ ∃ c st',
        createCoupon (Actor.mk "a9" "ADMIN") "c1" 2024
            (sampleState 150 12 "NORMAL") = .ok (c, st')
        ∧ st'.customers.find? (fun x => x.id == "c1")
            = some { sampleCustomer 150 12 "NORMAL" with
                      points := (sampleCustomer 150 12 "NORMAL").points - 100 } := by
  have h := createCoupon_admin_bypass (Actor.mk "a9" "ADMIN") "c1" 2024
    (sampleState 150 12 "NORMAL") rfl
  exact ⟨rfl, h.1,
    h.2.1 (sampleCustomer 150 12 "NORMAL") (by decide) (by decide)⟩

/-- C9: for a non-admin actor whose update payload passed the schema, the
request is rejected as Forbidden exactly when it carries a role field or
targets another customer's id; an update by the customer on their own id
without a role field is applied as sent - each present field, the points
value included, overwrites the stored one, the stored role and the
untouched fields are kept, and no other table changes. -/
theorem updateCustomer_self_service (actor : Actor) (id : String)
    (u : UpdatePayload) (st : State)
    (hrole : actor.role ≠ "ADMIN")
    (hvalid : updatePayloadValid u = true) :
    ((updateCustomer actor id u st = .error .forbidden)
      ↔ (u.role ≠ none ∨ id ≠ actor.id))
    ∧ (id = actor.id → u.role = none →
        ∀ c, st.customers.find? (fun x => x.id == id) = some c →
          ∃ c' st', updateCustomer actor id u st = .ok (c', st')
            ∧ c'.points = u.points.getD c.points
            ∧ c'.name = u.name.getD c.name
            ∧ c'.email = u.email.getD c.email
            ∧ c'.phone = u.phone.getD c.phone
            ∧ c'.role = c.role
            ∧ c'.id = c.id ∧ c'.loyaltyId = c.loyaltyId
            ∧ c'.visitCount = c.visitCount ∧ c'.totalSpent = c.totalSpent
            ∧ st'.customers
                = updateFirst (fun x => x.id == id) (fun _ => c') st.customers
            ∧ st'.purchases = st.purchases ∧ st'.coupons = st.coupons) := by
  constructor
  · constructor
    · intro h
      by_contra hcon
      push_neg at hcon
      obtain ⟨hr, hid⟩ := hcon
      unfold updateCustomer at h
      rw [if_neg (fun hh => hh.2 hid.symm), if_neg (fun hh => hh.1 hr)] at h
      rcases hf : st.customers.find? (fun x => x.id == id) with _ | c
      · simp only [hf] at h
        injection h with h
        exact absurd h (by decide)
      · simp only [hf] at h
        exact Except.noConfusion h
    · intro h
      rcases h with hr | hid
      · unfold updateCustomer
        by_cases h1 : actor.id ≠ id
        · rw [if_pos ⟨hrole, h1⟩]
        · rw [if_neg (fun hh => h1 hh.2), if_pos ⟨hr, hrole⟩]
      · unfold updateCustomer
        rw [if_pos ⟨hrole, fun he => hid he.symm⟩]
  · intro hid hr c hf
    unfold updateCustomer
    rw [if_neg (fun hh => hh.2 hid.symm), if_neg (fun hh => hh.1 hr)]
    simp only [hf]
    refine ⟨_, _, rfl, rfl, rfl, rfl, rfl, ?_, rfl, rfl, rfl, rfl, rfl, rfl,
      rfl⟩
    show u.role.getD c.role = c.role
    rw [hr]
    rfl

/-- Witness for C9: a NORMAL customer rewriting their own points to 9999. -/
theorem updateCustomer_self_service_witness :
    (Actor.mk "c1" "NORMAL").role ≠ "ADMIN"
    ∧ updatePayloadValid (UpdatePayload.mk none none none (some 9999) none)
        = true
    ∧ ((updateCustomer (Actor.mk "c1" "NORMAL") "c1"
          (UpdatePayload.mk none none none (some 9999) none)
          (sampleState 85 12 "NORMAL") = .error .forbidden)
        ↔ ((UpdatePayload.mk none none none (some 9999) none).role ≠ none
          ∨ "c1" ≠ (Actor.mk "c1" "NORMAL").id))
    ∧ ∃ c' st',
        updateCustomer (Actor.mk "c1" "NORMAL") "c1"
            (UpdatePayload.mk none none none (some 9999) none)
            (sampleState 85 12 "NORMAL")
          = .ok (c', st')
        ∧ c'.points = 9999 ∧ c'.role = "NORMAL" := by
  have h := updateCustomer_self_service (Actor.mk "c1" "NORMAL") "c1"
    (UpdatePayload.mk none none none (some 9999) none)
    (sampleState 85 12 "NORMAL") (by decide) (by decide)
  refine ⟨by decide, by decide, h.1, ?_⟩
  obtain ⟨c', st', h1, h2, _, _, _, h6, _⟩ :=
    h.2 rfl rfl (sampleCustomer 85 12 "NORMAL") (by decide)
  exact ⟨c', st', h1, h2, h6⟩

/-- Helper: calculatePoints is non-negative for a non-negative amount,
whatever the role. -/
theorem calculatePoints_nonneg (amount : Int) (role : String)
    (h : 0 ≤ amount) : 0 ≤ calculatePoints amount role := by
  unfold calculatePoints floorAfterRound
  apply Int.ediv_nonneg _ (by norm_num)
  apply mul_nonneg _ (Int.natCast_nonneg _)
  have h1 : 0 ≤ amount / 100 := Int.ediv_nonneg h (by norm_num)
  have h2 : 0 ≤ mantissaOf role := by
    unfold mantissaOf
    split_ifs <;> norm_num
  exact Int.sign_nonneg.mpr (mul_nonneg h1 h2)

/-- Helper: a single operation preserves the non-negative-points invariant:
creation starts at zero, a purchase adds a non-negative earning, coupon
creation decrements 100 only behind the 100-point guard, redemption leaves
customers alone, and a schema-validated update writes a checked value. -/
theorem step_preserves_pointsNonneg (op : Op) (st : State)
    (h : PointsNonneg st) : PointsNonneg (step op st) := by
  cases op with
  | opCreateCustomer id lid name email phone =>
    simp only [step]
    unfold createCustomer
    split_ifs with hdup
    · exact h
    · intro c hc
      rcases List.mem_append.mp hc with hm | hm
      · exact h c hm
      · rcases List.mem_singleton.mp hm with rfl
        exact le_refl 0
  | opRecordPurchase cid amount receipt =>
    simp only [step]
    split_ifs with hpos
    · unfold createPurchase
      rcases hf : st.customers.find? (fun c => c.id == cid) with _ | cust
      · simp only [hf]
        exact h
      · simp only [hf]
        intro c hc
        rcases mem_updateFirst _ _ st.customers c hc with hm | ⟨x, hx1, hx2⟩
        · exact h c hm
        · rw [hf] at hx1
          injection hx1 with hx1
          subst hx1
          subst hx2
          exact add_nonneg (h cust (List.mem_of_find?_eq_some hf))
            (calculatePoints_nonneg amount cust.role hpos.le)
    · exact h
  | opCreateCoupon actor cid year =>
    simp only [step]
    unfold createCoupon
    split_ifs with hguard
    · exact h
    · rcases hf : st.customers.find? (fun c => c.id == cid) with _ | cust
      · simp only [hf]
        exact h
      · simp only [hf]
        split_ifs with hpts
        · exact h
        · intro c hc
          rcases mem_updateFirst _ _ st.customers c hc with hm | ⟨x, hx1, hx2⟩
          · exact h c hm
          · rw [hf] at hx1
            injection hx1 with hx1
            subst hx1
            subst hx2
            show (0 : Int) ≤ cust.points - 100
            omega
  | opRedeemCoupon code now =>
    simp only [step]
    unfold redeemCoupon
    rcases hf : st.coupons.find? (fun c => c.code == code) with _ | c
    · simp only [hf]
      exact h
    · simp only [hf]
      split_ifs with hr
      · exact h
      · exact h
  | opUpdateCustomer actor id u =>
    simp only [step]
    split_ifs with hv
    · unfold updateCustomer
      split_ifs with h1 h2
      · exact h
      · exact h
      · rcases hf : st.customers.find? (fun c => c.id == id) with _ | cust
        · simp only [hf]
          exact h
        · simp only [hf]
          intro c hc
          rcases mem_updateFirst _ _ st.customers c hc with hm | ⟨x, hx1, hx2⟩
          · exact h c hm
          · rw [hf] at hx1
            injection hx1 with hx1
            subst hx1
            subst hx2
            show (0 : Int) ≤ u.points.getD cust.points
            rcases hu : u.points with _ | p
            · exact h cust (List.mem_of_find?_eq_some hf)
            · have hval := hv
              unfold updatePayloadValid at hval
              rw [hu] at hval
              simp only [Bool.and_eq_true, decide_eq_true_eq] at hval
              exact hval.1.2
    · exact h

/-- C7: along every sequence of the five operations - customer creation,
purchase recording, coupon creation, coupon redemption, customer update -
every stored customer's points stay a non-negative integer after each
step, provided they were non-negative to begin with (a fresh store, or any
store reached by these operations). -/
theorem points_never_negative (st : State) (ops : List Op)
    (h : PointsNonneg st) : PointsNonneg (runOps ops st) := by
  induction ops generalizing st with
  | nil => exact h
  | cons op rest ih => exact ih (step op st) (step_preserves_pointsNonneg op st h)

/-- Witness for C7: from an empty store, creating a customer, recording a
2500-unit purchase, creating a coupon and updating the profile. -/
theorem points_never_negative_witness :
    PointsNonneg (State.mk [] [] [])
    ∧ PointsNonneg (runOps
        [Op.opCreateCustomer "c1" "CUST001" "Ann" "a@b.c" "12345678901",
         Op.opRecordPurchase "c1" 9500 "RCP-1",
         Op.opCreateCoupon (Actor.mk "c1" "NORMAL") "c1" 2024,
         Op.opUpdateCustomer (Actor.mk "c1" "NORMAL") "c1"
           (UpdatePayload.mk none none none (some 3) none),
         Op.opRecordPurchase "c1" 99 "RCP-2"]
        (State.mk [] [] [])) :=
  ⟨fun c hc => absurd hc (List.not_mem_nil c),
    points_never_negative (State.mk [] [] []) _
      (fun c hc => absurd hc (List.not_mem_nil c))⟩

/-- Helper: the boolean comparison underlying the descending scan agrees
with the lexicographic strict order on character lists. -/
theorem strLtb_iff_lt : ∀ a b : List Char,
    strLtb a b = true ↔ List.Lex (fun x y : Char => x < y) a b := by
  intro a
  induction a with
  | nil =>
    intro b
    cases b with
    | nil =>
      constructor
      · intro h
        exact Bool.noConfusion h
      · intro h
        cases h
    | cons y ys =>
      exact ⟨fun _ => List.Lex.nil, fun _ => rfl⟩
  | cons x xs ih =>
    intro b
    cases b with
    | nil =>
      constructor
      · intro h
        exact Bool.noConfusion h
      · intro h
        cases h
    | cons y ys =>
      unfold strLtb
      by_cases hxy : x < y
      · rw [if_pos hxy]
        exact ⟨fun _ => List.Lex.rel hxy, fun _ => rfl⟩
      · rw [if_neg hxy]
        by_cases hyx : y < x
        · rw [if_pos hyx]
          constructor
          · intro h
            exact absurd h (by decide)
          · intro h
            cases h with
            | cons h1 => exact absurd hyx (lt_irrefl x)
            | rel h1 => exact absurd h1 hxy
        · rw [if_neg hyx]
          have hxyeq : x = y := le_antisymm (not_lt.mp hyx) (not_lt.mp hxy)
          subst hxyeq
          constructor
          · intro h
            exact List.Lex.cons ((ih ys).mp h)
          · intro h
            cases h with
            | cons h1 => exact (ih ys).mpr h1
            | rel h1 => exact absurd h1 (lt_irrefl x)

/-- Helper: strLtb on code data agrees with the strict order on lists. -/
theorem strLtb_iff_lt' (a b : List Char) : strLtb a b = true ↔ a < b := by
  rw [strLtb_iff_lt]
  exact Iff.rfl

/-- Helper: the comparison step on a present accumulator is the plain
larger-of-two choice. -/
theorem maxStep_some (b c : Coupon) :
    maxStep (some b) c
      = if strLtb b.code.data c.code.data = true then some c else some b := rfl

/-- Helper: the fold of the descending-order scan, started on a candidate,
lands on a row of the table or the candidate itself, at least as large as
the candidate and as every row. -/
theorem maxByCode_go (l : List Coupon) :
    ∀ b : Coupon,
      ∃ r, l.foldl maxStep (some b) = some r
        ∧ (r = b ∨ r ∈ l)
        ∧ b.code.data ≤ r.code.data
        ∧ ∀ d ∈ l, d.code.data ≤ r.code.data := by
  induction l with
  | nil =>
    intro b
    exact ⟨b, rfl, Or.inl rfl, le_refl _,
      fun d hd => absurd hd (List.not_mem_nil d)⟩
  | cons c cs ih =>
    intro b
    rw [List.foldl_cons]
    by_cases h : strLtb b.code.data c.code.data = true
    · rw [maxStep_some, if_pos h]
      obtain ⟨r, h1, h2, h3, h4⟩ := ih c
      have hbc : b.code.data < c.code.data := (strLtb_iff_lt' _ _).mp h
      refine ⟨r, h1, ?_, le_trans hbc.le h3, ?_⟩
      · rcases h2 with h2 | h2
        · exact Or.inr (h2 ▸ List.mem_cons_self c cs)
        · exact Or.inr (List.mem_cons_of_mem c h2)
      · intro d hd
        rcases List.mem_cons.mp hd with hd | hd
        · exact hd ▸ h3
        · exact h4 d hd
    · rw [maxStep_some, if_neg h]
      obtain ⟨r, h1, h2, h3, h4⟩ := ih b
      have hcb : c.code.data ≤ b.code.data :=
        not_lt.mp fun hlt => h ((strLtb_iff_lt' _ _).mpr hlt)
      refine ⟨r, h1, ?_, h3, ?_⟩
      · rcases h2 with h2 | h2
        · exact Or.inl h2
        · exact Or.inr (List.mem_cons_of_mem c h2)
      · intro d hd
        rcases List.mem_cons.mp hd with hd | hd
        · exact hd ▸ le_trans hcb h3
        · exact h4 d hd

/-- Helper: on a nonempty coupon table the descending scan returns a stored
row whose code is lexicographically at least every stored code. -/
theorem maxByCode_spec (l : List Coupon) (hne : l ≠ []) :
    ∃ r, maxByCode l = some r ∧ r ∈ l
      ∧ ∀ d ∈ l, d.code.data ≤ r.code.data := by
  cases l with
  | nil => exact absurd rfl hne
  | cons c cs =>
    unfold maxByCode
    rw [List.foldl_cons]
    obtain ⟨r, h1, h2, h3, h4⟩ := maxByCode_go cs c
    refine ⟨r, h1, ?_, ?_⟩
    · rcases h2 with h2 | h2
      · exact h2 ▸ List.mem_cons_self c cs
      · exact List.mem_cons_of_mem c h2
    · intro d hd
      rcases List.mem_cons.mp hd with hd | hd
      · exact hd ▸ h3
      · exact h4 d hd

/-- C8: every coupon creation assigns the code "COUP-" + year + "-" + the
three-digit-zero-padded successor of n, where n is parsed from the third
dash-separated segment of the lexicographically maximum stored code - the
maximum taken by string order over the whole code, not by numeric suffix
value - and n = 0 when no coupon is stored. -/
theorem createCoupon_code_formula (actor : Actor) (cid : String)
    (year : Nat) (st : State) (c : Coupon) (st' : State)
    (h : createCoupon actor cid year st = .ok (c, st')) :
    (st.coupons = [] →
      c.code = "COUP-" ++ toString year ++ "-" ++ zeroPad 3 (0 + 1))
    ∧ (∀ m ∈ st.coupons, (∀ d ∈ st.coupons, d.code.data ≤ m.code.data) →
        c.code = "COUP-" ++ toString year ++ "-"
          ++ zeroPad 3 (couponSuffix m.code + 1)) := by
  unfold createCoupon at h
  by_cases hg : actor.role ≠ "ADMIN" ∧ actor.id ≠ cid
  · rw [if_pos hg] at h
    exact Except.noConfusion h
  · rw [if_neg hg] at h
    rcases hf : st.customers.find? (fun x => x.id == cid) with _ | cust
    · simp only [hf] at h
      exact Except.noConfusion h
    · simp only [hf] at h
      by_cases hp : cust.points < 100
      · rw [if_pos hp] at h
        exact Except.noConfusion h
      · rw [if_neg hp] at h
        injection h with hpair
        injection hpair with hcou hst
        subst hcou
        constructor
        · intro hempty
          show generateCouponCode
            (match maxByCode st.coupons with
             | none => 0
             | some lc => couponSuffix lc.code) year = _
          rw [hempty]
          rfl
        · intro m hm hmax
          have hne : st.coupons ≠ [] := by
            intro he
            rw [he] at hm
            exact List.not_mem_nil m hm
          obtain ⟨r, hr1, hr2, hr3⟩ := maxByCode_spec st.coupons hne
          have hdata : r.code.data = m.code.data :=
            le_antisymm (hmax r hr2) (hr3 m hm)
          have hcode : r.code = m.code := by
            calc r.code = ⟨r.code.data⟩ := rfl
              _ = ⟨m.code.data⟩ := by rw [hdata]
              _ = m.code := rfl
          show generateCouponCode
            (match maxByCode st.coupons with
             | none => 0
             | some lc => couponSuffix lc.code) year = _
          rw [hr1]
          show generateCouponCode (couponSuffix r.code) year
            = "COUP-" ++ toString year ++ "-"
              ++ zeroPad 3 (couponSuffix m.code + 1)
          rw [hcode]
          rfl

/-- Witness for C8: creating a coupon over a store already holding codes
from two different years, where the string-maximum code is the 2025 one
even though the 2024 one has the larger numeric suffix. -/
theorem createCoupon_code_formula_witness :
    createCoupon (Actor.mk "c1" "NORMAL") "c1" 2025
        (State.mk [sampleCustomer 150 12 "NORMAL"] []
          [{ code := "COUP-2024-099", customerId := "c1", value := 1000,
             redeemed := true, redeemedAt := some 1 },
           { code := "COUP-2025-001", customerId := "c1", value := 1000,
             redeemed := false, redeemedAt := none }])
      = .ok
        ({ code := "COUP-2025-002", customerId := "c1", value := 1000,
           redeemed := false, redeemedAt := none },
         State.mk [sampleCustomer 50 12 "NORMAL"] []
          [{ code := "COUP-2024-099", customerId := "c1", value := 1000,
             redeemed := true, redeemedAt := some 1 },
           { code := "COUP-2025-001", customerId := "c1", value := 1000,
             redeemed := false, redeemedAt := none },
           { code := "COUP-2025-002", customerId := "c1", value := 1000,
             redeemed := false, redeemedAt := none }])
    ∧ (∀ m ∈ (State.mk [sampleCustomer 150 12 "NORMAL"] []
          [{ code := "COUP-2024-099", customerId := "c1", value := 1000,
             redeemed := true, redeemedAt := some 1 },
           { code := "COUP-2025-001", customerId := "c1", value := 1000,
             redeemed := false, redeemedAt := none }]).coupons,
        (∀ d ∈ (State.mk [sampleCustomer 150 12 "NORMAL"] []
          [{ code := "COUP-2024-099", customerId := "c1", value := 1000,
             redeemed := true, redeemedAt := some 1 },
           { code := "COUP-2025-001", customerId := "c1", value := 1000,
             redeemed := false, redeemedAt := none }]).coupons,
          d.code.data ≤ m.code.data) →
        ({ code := "COUP-2025-002", customerId := "c1", value := 1000,
           redeemed := false, redeemedAt := none } : Coupon).code
          = "COUP-" ++ toString 2025 ++ "-"
            ++ zeroPad 3 (couponSuffix m.code + 1)) := by
  refine ⟨rfl, ?_⟩
  exact (createCoupon_code_formula (Actor.mk "c1" "NORMAL") "c1" 2025
    (State.mk [sampleCustomer 150 12 "NORMAL"] []
      [{ code := "COUP-2024-099", customerId := "c1", value := 1000,
         redeemed := true, redeemedAt := some 1 },
       { code := "COUP-2025-001", customerId := "c1", value := 1000,
         redeemed := false, redeemedAt := none }])
    { code := "COUP-2025-002", customerId := "c1", value := 1000,
      redeemed := false, redeemedAt := none }
    (State.mk [sampleCustomer 50 12 "NORMAL"] []
      [{ code := "COUP-2024-099", customerId := "c1", value := 1000,
         redeemed := true, redeemedAt := some 1 },
       { code := "COUP-2025-001", customerId := "c1", value := 1000,
         redeemed := false, redeemedAt := none },
       { code := "COUP-2025-002", customerId := "c1", value := 1000,
         redeemed := false, redeemedAt := none }])
    rfl).2

end Loyalty
